import Mathlib

/-!
Verification development for the schema type-lowering engine of
`ariadne_codegen/generators/result_fields.py`.

The input type algebra, the annotation builders (`codegen.py`), the constant
tables (`constants.py`) and the scalar descriptor (`scalars.py`) are not part
of the sources at hand; they are modelled from the specification.  The
functions `parse_operation_field`, `parse_operation_field_type` and
`is_nullable` are translated directly from `result_fields.py`.
-/

namespace ResultFields

/-- Modelled from the spec: the external schema model's type expression
(`CodegenResultFieldType`), a closed tagged variant
`Scalar / Object / Interface / Enum / Union / List / NonNull`, extended by one
constructor `Other` standing for any schema node kind outside the closed
algebra the engine handles (spec §4.1 "Any other node kind"). -/
inductive CodegenResultFieldType where
  | Scalar (name : String)
  | Object (name : String)
  | Interface (name : String)
  | Enum (name : String)
  | Union (name : String) (types : List CodegenResultFieldType)
  | List (ofType : CodegenResultFieldType)
  | NonNull (ofType : CodegenResultFieldType)
  | Other (name : String)

/-- Modelled from the spec: the output annotation tree (`Annot`, named `Annotation` in the source), a closed
tagged variant with structural equality (spec §3). -/
inductive Annot where
  | Named (name : String)
  | Optional (inner : Annot)
  | ListOf (inner : Annot)
  | UnionOf (variants : List Annot)

/-- Modelled from the spec: `ScalarData`, the target-type descriptor stored in
the custom-scalar map; only its target type name is used by the engine. -/
structure ScalarData where
  type : String
deriving DecidableEq, Repr

/-- Modelled from the spec: `CustomScalarMap`, an immutable string-keyed
mapping from scalar name to `ScalarData`; modelled as an association list. -/
def CustomScalarMap := List (String × ScalarData)

/-- Modelled from the spec: a usage directive at an operation site; only its
name is inspected by the override pass (`d.name.value` in the source). -/
structure DirectiveNode where
  name : String
deriving DecidableEq, Repr

/-- Modelled from the spec: `FieldNames`, the `(localName, schemaTypeName)`
reference pair (`NamedTypeReference`). -/
structure FieldNames where
  class_name : String
  type_name : String
deriving DecidableEq, Repr

/-- Modelled from the spec: `SIMPLE_TYPE_MAP` from `constants.py`, the static
table mapping the five built-in scalar names to primitive type names. -/
def SIMPLE_TYPE_MAP : List (String × String) :=
  [("ID", "str"), ("String", "str"), ("Int", "int"),
   ("Float", "float"), ("Boolean", "bool")]

/-- Modelled from the spec: `ANY` from `constants.py`, the opaque/dynamic type
name used for unregistered custom scalars. -/
def ANY : String := "Any"

/-- Modelled from the spec: `INCLUDE_DIRECTIVE_NAME` from `constants.py`. -/
def INCLUDE_DIRECTIVE_NAME : String := "include"

/-- Modelled from the spec: `SKIP_DIRECTIVE_NAME` from `constants.py`. -/
def SKIP_DIRECTIVE_NAME : String := "skip"

/-- Modelled from the spec: `generate_annotation_name` from `codegen.py` —
`Named(name)` wrapped in `Optional` iff `nullable` (spec §4.1, §4.3). -/
def generate_annotation_name (name : String) (nullable : Bool) : Annot :=
  if nullable then .Optional (.Named name) else .Named name

/-- Modelled from the spec: `generate_nullable_annotation` from `codegen.py` —
wraps an annotation in `Optional`, with the §4.3 normalization rule that
wrapping an already-`Optional` annotation collapses to a single `Optional`. -/
def generate_nullable_annot (slice_ : Annot) : Annot :=
  match slice_ with
  | .Optional inner => .Optional inner
  | a => .Optional a

/-- Modelled from the spec: `generate_list_annotation` from `codegen.py` —
`ListOf(slice)` wrapped in `Optional` iff `nullable`. -/
def generate_list_annot (slice_ : Annot) (nullable : Bool) : Annot :=
  if nullable then .Optional (.ListOf slice_) else .ListOf slice_

/-- Modelled from the spec: `generate_union_annotation` from `codegen.py` —
`UnionOf(types)` wrapped in `Optional` iff `nullable`.  Non-emptiness of
`types` is a caller invariant (spec §4.3), not checked here. -/
def generate_union_annot (types : List Annot) (nullable : Bool) : Annot :=
  if nullable then .Optional (.UnionOf types) else .UnionOf types

/-- Lookup in the optional custom-scalar map: the source guards with
`custom_scalars and type_.name in custom_scalars` before indexing. -/
def lookupCustomScalar (custom_scalars : Option CustomScalarMap) (name : String) :
    Option ScalarData :=
  match custom_scalars with
  | none => none
  | some m => m.lookup name

mutual

/-- `parse_operation_field_type` from `result_fields.py` (lines 53-125):
the recursive lowering of a schema type into an annotation plus the list of
named-type references, raising `ParsingError("Invalid field type.")` on any
node outside the closed algebra. -/
def parse_operation_field_type (type_ : CodegenResultFieldType) (nullable : Bool)
    (class_name : String) (add_type_name : Bool)
    (custom_scalars : Option CustomScalarMap) :
    Except String (Annot × List FieldNames) :=
  match type_ with
  | .Scalar name =>
    match SIMPLE_TYPE_MAP.lookup name with
    | some simple => .ok (generate_annotation_name simple nullable, [])
    | none =>
      match lookupCustomScalar custom_scalars name with
      | some data =>
        .ok (generate_annotation_name data.type nullable,
             [⟨data.type, name⟩])
      | none => .ok (generate_annotation_name ANY nullable, [])
  | .Object tname =>
    let name := if add_type_name then class_name ++ tname else class_name
    .ok (generate_annotation_name ("\"" ++ name ++ "\"") nullable, [⟨name, tname⟩])
  | .Interface tname =>
    let name := if add_type_name then class_name ++ tname else class_name
    .ok (generate_annotation_name ("\"" ++ name ++ "\"") nullable, [⟨name, tname⟩])
  | .Enum name =>
    .ok (generate_annotation_name name nullable, [⟨name, name⟩])
  | .Union _ types =>
    match parse_union_subtypes types class_name custom_scalars with
    | .error e => .error e
    | .ok (annotations, names) =>
      .ok (generate_union_annot annotations nullable, names)
  | .List of_type =>
    match parse_operation_field_type of_type nullable class_name false custom_scalars with
    | .error e => .error e
    | .ok (slice_, names) =>
      .ok (generate_list_annot slice_ nullable, names)
  | .NonNull of_type =>
    parse_operation_field_type of_type false class_name false custom_scalars
  | .Other _ => .error "Invalid field type."

/-- The loop over `type_.types` in the `GraphQLUnionType` branch of
`parse_operation_field_type`: each subtype is lowered with `nullable=False`
and `add_type_name=True`; annotations are collected in order and reference
lists are concatenated; an exception propagates immediately. -/
def parse_union_subtypes (types : List CodegenResultFieldType) (class_name : String)
    (custom_scalars : Option CustomScalarMap) :
    Except String (List Annot × List FieldNames) :=
  match types with
  | [] => .ok ([], [])
  | subtype :: rest =>
    match parse_operation_field_type subtype false class_name true custom_scalars with
    | .error e => .error e
    | .ok (sub_annot, sub_names) =>
      match parse_union_subtypes rest class_name custom_scalars with
      | .error e => .error e
      | .ok (annotations, names) =>
        .ok (sub_annot :: annotations, sub_names ++ names)

end

/-- `is_nullable` from `result_fields.py` (lines 128-133): the source checks
that the annotation ast is a `Subscript` whose value is the name `Optional`,
which in the structural annotation model is exactly an outermost `Optional`. -/
def is_nullable (annot : Annot) : Bool :=
  match annot with
  | .Optional _ => true
  | _ => false

/-- The directive override applied by `parse_operation_field`
(`result_fields.py` lines 45-49): when the annot is not already nullable
and some present directive is `include` or `skip`, wrap it as nullable. -/
def apply_directives_override (annot : Annot)
    (directives : Option (List DirectiveNode)) : Annot :=
  match directives with
  | none => annot
  | some ds =>
    if !(is_nullable annot) && !ds.isEmpty then
      let nullable_directives := [INCLUDE_DIRECTIVE_NAME, SKIP_DIRECTIVE_NAME]
      let directives_names := ds.map (·.name)
      if directives_names.any (fun n => nullable_directives.contains n) then
        generate_nullable_annot annot
      else annot
    else annot

/-- `parse_operation_field` from `result_fields.py` (lines 36-50): lower the
field type with the defaults `nullable=True`, `add_type_name=False`, then
apply the directive nullability override to the annot only. -/
def parse_operation_field (type_ : CodegenResultFieldType)
    (directives : Option (List DirectiveNode)) (class_name : String)
    (custom_scalars : Option CustomScalarMap) :
    Except String (Annot × List FieldNames) :=
  match parse_operation_field_type type_ true class_name false custom_scalars with
  | .error e => .error e
  | .ok (annot, field_types_names) =>
    .ok (apply_directives_override annot directives, field_types_names)

mutual

/-- A node is inside the closed algebra handled by the engine when it is built
only from the seven handled kinds, i.e. contains no `Other` node. -/
def inAlgebra : CodegenResultFieldType → Bool
  | .Scalar _ => true
  | .Object _ => true
  | .Interface _ => true
  | .Enum _ => true
  | .Union _ types => inAlgebraList types
  | .List t => inAlgebra t
  | .NonNull t => inAlgebra t
  | .Other _ => false

/-- All nodes of a list are inside the closed algebra. -/
def inAlgebraList : List CodegenResultFieldType → Bool
  | [] => true
  | t :: ts => inAlgebra t && inAlgebraList ts

end

/-- Any annot produced by a lowering call with `nullable = false` is not
outermost-`Optional`: every success branch wraps with its own `nullable`
argument, and the `NonNull` branch recurses with `nullable = false`. -/
theorem parse_false_not_nullable (t : CodegenResultFieldType) (cn : String) (add : Bool)
    (cs : Option CustomScalarMap) (a : Annot) (r : List FieldNames)
    (h : parse_operation_field_type t false cn add cs = .ok (a, r)) :
    is_nullable a = false := by
  cases t with
  | Scalar name =>
    simp only [parse_operation_field_type] at h
    cases hs : SIMPLE_TYPE_MAP.lookup name with
    | some simple =>
      rw [hs] at h
      obtain ⟨h1, h2⟩ : generate_annotation_name simple false = a ∧ ([] : List FieldNames) = r := by
        simpa using h
      simp [← h1, generate_annotation_name, is_nullable]
    | none =>
      rw [hs] at h
      cases hc : lookupCustomScalar cs name with
      | some data =>
        rw [hc] at h
        obtain ⟨h1, h2⟩ : generate_annotation_name data.type false = a ∧ _ = r := by
          simpa using h
        simp [← h1, generate_annotation_name, is_nullable]
      | none =>
        rw [hc] at h
        obtain ⟨h1, h2⟩ : generate_annotation_name ANY false = a ∧ ([] : List FieldNames) = r := by
          simpa using h
        simp [← h1, generate_annotation_name, is_nullable]
  | Object tname =>
    simp only [parse_operation_field_type] at h
    obtain ⟨h1, h2⟩ : generate_annotation_name _ false = a ∧ _ = r := by simpa using h
    simp [← h1, generate_annotation_name, is_nullable]
  | Interface tname =>
    simp only [parse_operation_field_type] at h
    obtain ⟨h1, h2⟩ : generate_annotation_name _ false = a ∧ _ = r := by simpa using h
    simp [← h1, generate_annotation_name, is_nullable]
  | Enum name =>
    simp only [parse_operation_field_type] at h
    obtain ⟨h1, h2⟩ : generate_annotation_name _ false = a ∧ _ = r := by simpa using h
    simp [← h1, generate_annotation_name, is_nullable]
  | Union uname ts =>
    simp only [parse_operation_field_type] at h
    cases hu : parse_union_subtypes ts cn cs with
    | error e => rw [hu] at h; exact absurd h (by simp)
    | ok p =>
      obtain ⟨anns, names⟩ := p
      rw [hu] at h
      obtain ⟨h1, h2⟩ : generate_union_annot anns false = a ∧ names = r := by simpa using h
      simp [← h1, generate_union_annot, is_nullable]
  | List of_type =>
    simp only [parse_operation_field_type] at h
    cases hl : parse_operation_field_type of_type false cn false cs with
    | error e => rw [hl] at h; exact absurd h (by simp)
    | ok p =>
      obtain ⟨slice_, names⟩ := p
      rw [hl] at h
      obtain ⟨h1, h2⟩ : generate_list_annot slice_ false = a ∧ names = r := by simpa using h
      simp [← h1, generate_list_annot, is_nullable]
  | NonNull of_type =>
    exact parse_false_not_nullable of_type cn false cs a r h
  | Other name =>
    exact absurd h (by simp [parse_operation_field_type])

/-- The accumulation loop over union variants is the monadic map of the
variant lowering call, paired with flattening of the reference lists. -/
theorem parse_union_subtypes_eq_mapM (ts : List CodegenResultFieldType) (cn : String)
    (cs : Option CustomScalarMap) :
    parse_union_subtypes ts cn cs =
      (ts.mapM (fun t => parse_operation_field_type t false cn true cs)).map
        (fun results => (results.map Prod.fst, (results.map Prod.snd).flatten)) := by
  induction ts with
  | nil => rfl
  | cons t rest ih =>
    rw [List.mapM_cons]
    simp only [parse_union_subtypes]
    cases hp : parse_operation_field_type t false cn true cs with
    | error e =>
      simp [hp, Except.map, Bind.bind, Except.bind]
    | ok p =>
      obtain ⟨a, ns⟩ := p
      rw [ih]
      cases hm : rest.mapM (fun t => parse_operation_field_type t false cn true cs) with
      | error e =>
        simp [hp, hm, Except.map, Bind.bind, Except.bind]
      | ok results =>
        simp [hp, hm, Except.map, Bind.bind, Except.bind, Pure.pure, Except.pure]

mutual

/-- The lowering call succeeds exactly on nodes inside the closed algebra. -/
theorem parse_isOk_eq_inAlgebra (t : CodegenResultFieldType) (n : Bool) (cn : String)
    (add : Bool) (cs : Option CustomScalarMap) :
    (parse_operation_field_type t n cn add cs).isOk = inAlgebra t := by
  cases t with
  | Scalar name =>
    simp only [parse_operation_field_type, inAlgebra]
    cases SIMPLE_TYPE_MAP.lookup name with
    | some simple => rfl
    | none => cases lookupCustomScalar cs name <;> rfl
  | Object tname => rfl
  | Interface tname => rfl
  | Enum name => rfl
  | Union uname ts =>
    simp only [parse_operation_field_type, inAlgebra]
    rw [← parse_union_isOk_eq_inAlgebraList ts cn cs]
    cases parse_union_subtypes ts cn cs <;> rfl
  | List of_type =>
    simp only [parse_operation_field_type, inAlgebra]
    rw [← parse_isOk_eq_inAlgebra of_type n cn false cs]
    cases parse_operation_field_type of_type n cn false cs <;> rfl
  | NonNull of_type =>
    simp only [parse_operation_field_type, inAlgebra]
    exact parse_isOk_eq_inAlgebra of_type false cn false cs
  | Other name => rfl

/-- The union-variant loop succeeds exactly when all variants are inside the
closed algebra. -/
theorem parse_union_isOk_eq_inAlgebraList (ts : List CodegenResultFieldType) (cn : String)
    (cs : Option CustomScalarMap) :
    (parse_union_subtypes ts cn cs).isOk = inAlgebraList ts := by
  cases ts with
  | nil => rfl
  | cons t rest =>
    simp only [parse_union_subtypes, inAlgebraList]
    rw [← parse_isOk_eq_inAlgebra t false cn true cs,
        ← parse_union_isOk_eq_inAlgebraList rest cn cs]
    cases parse_operation_field_type t false cn true cs with
    | error e => rfl
    | ok p =>
      obtain ⟨a, ns⟩ := p
      cases parse_union_subtypes rest cn cs <;> rfl

end

mutual

/-- The only error the lowering ever produces is the invalid-field-type
parsing error. -/
theorem parse_error_invalid (t : CodegenResultFieldType) (n : Bool) (cn : String)
    (add : Bool) (cs : Option CustomScalarMap) (e : String)
    (h : parse_operation_field_type t n cn add cs = .error e) :
    e = "Invalid field type." := by
  cases t with
  | Scalar name =>
    simp only [parse_operation_field_type] at h
    cases hs : SIMPLE_TYPE_MAP.lookup name with
    | some simple => rw [hs] at h; exact absurd h (by simp)
    | none =>
      rw [hs] at h
      cases hc : lookupCustomScalar cs name with
      | some data => rw [hc] at h; exact absurd h (by simp)
      | none => rw [hc] at h; exact absurd h (by simp)
  | Object tname => exact absurd h (by simp [parse_operation_field_type])
  | Interface tname => exact absurd h (by simp [parse_operation_field_type])
  | Enum name => exact absurd h (by simp [parse_operation_field_type])
  | Union uname ts =>
    simp only [parse_operation_field_type] at h
    cases hu : parse_union_subtypes ts cn cs with
    | error e2 =>
      rw [hu] at h
      obtain rfl : e2 = e := by simpa using h
      exact parse_union_error_invalid ts cn cs _ hu
    | ok p =>
      obtain ⟨anns, names⟩ := p
      rw [hu] at h
      exact absurd h (by simp)
  | List of_type =>
    simp only [parse_operation_field_type] at h
    cases hl : parse_operation_field_type of_type n cn false cs with
    | error e2 =>
      rw [hl] at h
      obtain rfl : e2 = e := by simpa using h
      exact parse_error_invalid of_type n cn false cs _ hl
    | ok p =>
      obtain ⟨slice_, names⟩ := p
      rw [hl] at h
      exact absurd h (by simp)
  | NonNull of_type =>
    exact parse_error_invalid of_type false cn false cs e h
  | Other name =>
    simp only [parse_operation_field_type] at h
    simpa using h.symm

/-- The only error the union-variant loop ever produces is the
invalid-field-type parsing error. -/
theorem parse_union_error_invalid (ts : List CodegenResultFieldType) (cn : String)
    (cs : Option CustomScalarMap) (e : String)
    (h : parse_union_subtypes ts cn cs = .error e) :
    e = "Invalid field type." := by
  cases ts with
  | nil => exact absurd h (by simp [parse_union_subtypes])
  | cons t rest =>
    simp only [parse_union_subtypes] at h
    cases hp : parse_operation_field_type t false cn true cs with
    | error e2 =>
      rw [hp] at h
      obtain rfl : e2 = e := by simpa using h
      exact parse_error_invalid t false cn true cs _ hp
    | ok p =>
      obtain ⟨a, ns⟩ := p
      rw [hp] at h
      cases hr : parse_union_subtypes rest cn cs with
      | error e2 =>
        rw [hr] at h
        obtain rfl : e2 = e := by simpa using h
        exact parse_union_error_invalid rest cn cs _ hr
      | ok q =>
        obtain ⟨anns, names⟩ := q
        rw [hr] at h
        exact absurd h (by simp)

end

/-- `any` over mapped directive names is `any` over the directives. -/
theorem any_map_directive_names (l : List DirectiveNode) (p : String → Bool) :
    (l.map DirectiveNode.name).any p = l.any (fun d => p d.name) := by
  induction l with
  | nil => rfl
  | cons d rest ih => simp [List.any_cons, ih]

/-- Membership in the two-element directive-name list, unfolded. -/
theorem contains_pair (n i s : String) : [i, s].contains n = (n == i || n == s) := by
  simp only [List.contains, List.elem]
  cases n == i <;> cases n == s <;> rfl

/-- Wrapping a non-`Optional` annot as nullable adds exactly one
`Optional` layer. -/
theorem generate_nullable_eq_optional (a : Annot) (h : is_nullable a = false) :
    generate_nullable_annot a = .Optional a := by
  cases a <;> first | rfl | simp [is_nullable] at h

/-- Claim C1 (amended): `Lower(List(NonNull(Scalar(Int))), nullable=true)`
yields `Optional(ListOf(Named(int)))`, and
`Lower(NonNull(List(Scalar(Int))), nullable=true)` yields `ListOf(Named(int))`
— the element annot is not `Optional`, because the `List` branch hands
its own `nullable` flag (here `false`, stripped by the outer `NonNull`) down
to the element; both with an empty reference list. -/
theorem claim1_list_element_nullability (cn : String) (add : Bool)
    (cs : Option CustomScalarMap) :
    parse_operation_field_type (.List (.NonNull (.Scalar "Int"))) true cn add cs
      = .ok (.Optional (.ListOf (.Named "int")), [])
    ∧ parse_operation_field_type (.NonNull (.List (.Scalar "Int"))) true cn add cs
      = .ok (.ListOf (.Named "int"), []) :=
  ⟨rfl, rfl⟩

/-- Claim C1 (counterexample): as stated the claim fails, because
`Lower(NonNull(List(Scalar(Int))), nullable=true)` yields
`ListOf(Named(int))`, not `ListOf(Optional(Named(int)))`. -/
theorem claim1_counterexample :
    ¬ (parse_operation_field_type (.List (.NonNull (.Scalar "Int"))) true "" false none
         = .ok (.Optional (.ListOf (.Named "int")), [])
       ∧ parse_operation_field_type (.NonNull (.List (.Scalar "Int"))) true "" false none
         = .ok (.ListOf (.Optional (.Named "int")), [])) := by
  intro h
  have h2 := h.2
  rw [show parse_operation_field_type (.NonNull (.List (.Scalar "Int"))) true "" false none
        = .ok (.ListOf (.Named "int"), ([] : List FieldNames)) from rfl] at h2
  simp at h2

/-- Claim C2 (amended): for every node `T`, flag and context,
`Lower(NonNull(T), nullable, ctx)` equals `Lower(T, nullable=false, ctx')`
where `ctx'` keeps `namePrefix` and `customScalars` unchanged but resets
`addTypeNameSuffix` to false (the recursive call does not pass
`add_type_name` through). -/
theorem claim2_nonnull_inversion (t : CodegenResultFieldType) (n : Bool) (cn : String)
    (add : Bool) (cs : Option CustomScalarMap) :
    parse_operation_field_type (.NonNull t) n cn add cs
      = parse_operation_field_type t false cn false cs :=
  rfl

/-- Claim C2 (counterexample): with `addTypeNameSuffix = true` the claimed
law fails: `Lower(NonNull(Object("A")), true, ("P", true, ∅))` names the stub
`P`, while `Lower(Object("A"), false, ("P", true, ∅))` names it `PA`. -/
theorem claim2_counterexample :
    parse_operation_field_type (.NonNull (.Object "A")) true "P" true none
      ≠ parse_operation_field_type (.Object "A") false "P" true none := by
  intro h
  rw [show parse_operation_field_type (.NonNull (.Object "A")) true "P" true none
        = .ok (.Named "\"P\"", [⟨"P", "A"⟩]) from rfl,
      show parse_operation_field_type (.Object "A") false "P" true none
        = .ok (.Named "\"PA\"", [⟨"PA", "A"⟩]) from rfl] at h
  simp at h

/-- Claim C3 (amended): for every `List` node, `Lower` recurses into the inner
node with the same `nullable` flag, the same `namePrefix` and `customScalars`,
but with `addTypeNameSuffix` reset to false; it wraps the inner annot in
`ListOf`, wraps that in `Optional` iff the outer `nullable` flag, and returns
the inner call's reference list unchanged. -/
theorem claim3_list_lowering (inner : CodegenResultFieldType) (n : Bool) (cn : String)
    (add : Bool) (cs : Option CustomScalarMap) :
    parse_operation_field_type (.List inner) n cn add cs
      = match parse_operation_field_type inner n cn false cs with
        | .error e => .error e
        | .ok (slice_, names) =>
          .ok ((if n then .Optional (.ListOf slice_) else .ListOf slice_), names) := by
  simp only [parse_operation_field_type]
  cases parse_operation_field_type inner n cn false cs with
  | error e => rfl
  | ok p =>
    obtain ⟨s, ns⟩ := p
    simp [generate_list_annot]

/-- Claim C3 (counterexample): the recursion does not keep the context's
`addTypeNameSuffix`: lowering `List(Object("A"))` under
`("P", addTypeNameSuffix=true, ∅)` names the stub `P`, while the claimed
same-context recursion would name it `PA`. -/
theorem claim3_counterexample :
    parse_operation_field_type (.List (.Object "A")) false "P" true none
      ≠ (match parse_operation_field_type (.Object "A") false "P" true none with
         | .error e => .error e
         | .ok (slice_, names) => .ok (.ListOf slice_, names)) := by
  intro h
  rw [show parse_operation_field_type (.List (.Object "A")) false "P" true none
        = .ok (.ListOf (.Named "\"P\""), [⟨"P", "A"⟩]) from rfl,
      show parse_operation_field_type (.Object "A") false "P" true none
        = .ok (.Named "\"PA\"", [⟨"PA", "A"⟩]) from rfl] at h
  simp at h

/-- Claim C4: scalar dispatch — a built-in scalar name lowers through the
static table to its primitive `Named` annot (wrapped in `Optional` iff
`nullable`) with no reference; otherwise a name registered in the
custom-scalar map lowers to `Named` of the entry's target type name plus
exactly the reference `(targetTypeName, scalarName)`; otherwise it lowers to
`Named(Any)` with no reference. -/
theorem claim4_scalar_dispatch (name : String) (nullable : Bool) (cn : String)
    (add : Bool) (cs : Option CustomScalarMap) :
    parse_operation_field_type (.Scalar name) nullable cn add cs
      = match SIMPLE_TYPE_MAP.lookup name with
        | some simple =>
          .ok ((if nullable then .Optional (.Named simple) else .Named simple), [])
        | none =>
          match lookupCustomScalar cs name with
          | some data =>
            .ok ((if nullable then .Optional (.Named data.type) else .Named data.type),
                 [⟨data.type, name⟩])
          | none => .ok ((if nullable then .Optional (.Named ANY) else .Named ANY), []) := by
  simp only [parse_operation_field_type]
  cases hs : SIMPLE_TYPE_MAP.lookup name with
  | some simple => simp [generate_annotation_name]
  | none => cases hc : lookupCustomScalar cs name <;> simp [generate_annotation_name]

/-- Claim C5: union lowering — every variant is lowered in declaration order
with `nullable=false`, `addTypeNameSuffix=true` and the same `namePrefix` and
`customScalars`; the result is `UnionOf` of the variant annotations in order
(wrapped in `Optional` iff the outer `nullable` flag) with all reference
lists concatenated in order without deduplication, and no variant annot
is itself `Optional`. -/
theorem claim5_union_lowering (uname : String) (ts : List CodegenResultFieldType)
    (nullable : Bool) (cn : String) (add : Bool) (cs : Option CustomScalarMap) :
    (parse_operation_field_type (.Union uname ts) nullable cn add cs
      = (ts.mapM (fun t => parse_operation_field_type t false cn true cs)).map
          (fun results =>
            ((if nullable then .Optional (.UnionOf (results.map Prod.fst))
              else .UnionOf (results.map Prod.fst)),
             (results.map Prod.snd).flatten)))
    ∧ ∀ t ∈ ts, ∀ a r, parse_operation_field_type t false cn true cs = .ok (a, r) →
        is_nullable a = false := by
  constructor
  · simp only [parse_operation_field_type]
    rw [parse_union_subtypes_eq_mapM]
    cases ts.mapM (fun t => parse_operation_field_type t false cn true cs) with
    | error e => rfl
    | ok results => simp [Except.map, generate_union_annot]
  · intro t _ a r h
    exact parse_false_not_nullable t cn true cs a r h

/-- Claim C5 (witness): the union of object types `A` and `B` under prefix
`Op`, and the non-optionality of the first lowered variant. -/
theorem claim5_witness :
    ((.Object "A" : CodegenResultFieldType)
        ∈ [(.Object "A" : CodegenResultFieldType), .Object "B"]
      ∧ parse_operation_field_type (.Object "A") false "Op" true none
          = .ok (.Named "\"OpA\"", [⟨"OpA", "A"⟩]))
    ∧ is_nullable (.Named "\"OpA\"") = false :=
  ⟨⟨List.mem_cons_self _ _, rfl⟩,
   (claim5_union_lowering "UV" [.Object "A", .Object "B"] true "Op" false none).2
     (.Object "A") (List.mem_cons_self _ _) (.Named "\"OpA\"") [⟨"OpA", "A"⟩] rfl⟩

/-- Claim C6: Object/Interface name flattening — the local stub name is
`namePrefix ++ node.name` when `addTypeNameSuffix` is true and `namePrefix`
otherwise; the annot is `Named` of the quoted (forward) local name
wrapped in `Optional` iff `nullable`, with exactly the reference
`(localName, node.name)`; and the type `Node` reached through a union under
prefixes `OpA` and `OpB` yields references `("OpANode", "Node")` and
`("OpBNode", "Node")`. -/
theorem claim6_name_flattening (tname : String) (nullable : Bool) (cn : String)
    (add : Bool) (cs : Option CustomScalarMap) :
    (parse_operation_field_type (.Object tname) nullable cn add cs
       = .ok ((if nullable
                then .Optional (.Named ("\"" ++ (if add then cn ++ tname else cn) ++ "\""))
                else .Named ("\"" ++ (if add then cn ++ tname else cn) ++ "\"")),
              [⟨if add then cn ++ tname else cn, tname⟩]))
    ∧ (parse_operation_field_type (.Interface tname) nullable cn add cs
       = .ok ((if nullable
                then .Optional (.Named ("\"" ++ (if add then cn ++ tname else cn) ++ "\""))
                else .Named ("\"" ++ (if add then cn ++ tname else cn) ++ "\"")),
              [⟨if add then cn ++ tname else cn, tname⟩]))
    ∧ (parse_operation_field_type (.Union "UA" [.Object "Node"]) true "OpA" false none).map
        Prod.snd = .ok [⟨"OpANode", "Node"⟩]
    ∧ (parse_operation_field_type (.Union "UB" [.Object "Node"]) true "OpB" false none).map
        Prod.snd = .ok [⟨"OpBNode", "Node"⟩] := by
  refine ⟨?_, ?_, rfl, rfl⟩ <;>
    simp only [parse_operation_field_type, generate_annotation_name]

/-- Claim C7: enum lowering never prefixes — for every `Enum` node,
independently of `namePrefix` and `addTypeNameSuffix`, the result is
`Named(node.name)` wrapped in `Optional` iff `nullable`, with exactly the
single reference `(node.name, node.name)`. -/
theorem claim7_enum_lowering (name : String) (nullable : Bool) (cn : String) (add : Bool)
    (cs : Option CustomScalarMap) :
    parse_operation_field_type (.Enum name) nullable cn add cs
      = .ok ((if nullable then .Optional (.Named name) else .Named name), [⟨name, name⟩]) := by
  simp only [parse_operation_field_type, generate_annotation_name]

/-- Claim C8: directive override — the annot is wrapped in exactly one
`Optional` iff it is not already outermost-`Optional` and some present
directive is named `include` or `skip`; otherwise it is returned unchanged,
and nested structure is never inspected. -/
theorem claim8_directive_override (a : Annot) (ds : Option (List DirectiveNode)) :
    apply_directives_override a ds
      = if !(is_nullable a)
           && (ds.getD []).any
                (fun d => d.name == INCLUDE_DIRECTIVE_NAME || d.name == SKIP_DIRECTIVE_NAME)
        then .Optional a else a := by
  cases ds with
  | none => simp [apply_directives_override]
  | some l =>
    simp only [apply_directives_override, Option.getD]
    cases hn : is_nullable a with
    | true => simp [hn]
    | false =>
      cases l with
      | nil => simp
      | cons d rest =>
        simp only [hn, Bool.not_false, List.isEmpty_cons, Bool.true_and, if_true]
        rw [any_map_directive_names]
        simp only [contains_pair]
        cases hb : ((d :: rest).any
            fun x => x.name == INCLUDE_DIRECTIVE_NAME || x.name == SKIP_DIRECTIVE_NAME) with
        | true => simp [hb, generate_nullable_eq_optional a hn]
        | false => simp [hb]

/-- Claim C9: InvalidTypeNode raises-iff — lowering succeeds exactly on nodes
built only from the closed algebra of the seven handled kinds, and the only
error it ever produces is the invalid-field-type parsing error. -/
theorem claim9_invalid_type_node (t : CodegenResultFieldType) (n : Bool) (cn : String)
    (add : Bool) (cs : Option CustomScalarMap) :
    (parse_operation_field_type t n cn add cs).isOk = inAlgebra t
    ∧ ∀ e, parse_operation_field_type t n cn add cs = .error e →
        e = "Invalid field type." :=
  ⟨parse_isOk_eq_inAlgebra t n cn add cs, fun e h => parse_error_invalid t n cn add cs e h⟩

/-- Claim C9 (witness): a node outside the algebra fails with the
invalid-field-type error, and a node inside the algebra succeeds. -/
theorem claim9_witness :
    ((parse_operation_field_type (.Other "InputObject") true "" false none).isOk
        = inAlgebra (.Other "InputObject"))
    ∧ (parse_operation_field_type (.Other "InputObject") true "" false none
        = .error "Invalid field type.")
    ∧ "Invalid field type." = "Invalid field type."
    ∧ (parse_operation_field_type (.Scalar "Int") true "" false none).isOk
        = inAlgebra (.Scalar "Int") :=
  ⟨(claim9_invalid_type_node (.Other "InputObject") true "" false none).1,
   rfl,
   (claim9_invalid_type_node (.Other "InputObject") true "" false none).2
     "Invalid field type." rfl,
   (claim9_invalid_type_node (.Scalar "Int") true "" false none).1⟩

/-- Claim C10: the directive override is a frame effect on the annot
only — the reference list returned by `parse_operation_field` is exactly the
one returned by the underlying `parse_operation_field_type` call. -/
theorem claim10_refs_unchanged (t : CodegenResultFieldType)
    (ds : Option (List DirectiveNode)) (cn : String) (cs : Option CustomScalarMap) :
    (parse_operation_field t ds cn cs).map Prod.snd
      = (parse_operation_field_type t true cn false cs).map Prod.snd := by
  unfold parse_operation_field
  cases parse_operation_field_type t true cn false cs with
  | error e => rfl
  | ok p =>
    obtain ⟨a, r⟩ := p
    rfl

end ResultFields
